import Mathlib

/-!
Shallow embedding of the `constvoidptr/utility` crate, covering the two
components the specification pins down: the read-throughput meter
(`src/measure.rs`) and the tracing setup builder (`src/tracing.rs`).

Modelling conventions:
- `usize` is `ℕ`, with the one unchecked subtraction in `time_remaining`
  modelled explicitly modulo `2 ^ 64` (release-build wrapping semantics;
  debug builds panic at the same spot).
- `f64` statistics are idealized as exact rationals `ℚ`; the IEEE-754
  division-by-zero outcomes (infinities, NaN) that `time_remaining` relies on
  are modelled explicitly by `F64`.
- `Instant` timestamps are rationals measured in seconds; `read` receives the
  current time and the wrapped reader's result as arguments, since the inner
  reader and the clock are the only external effects.
- `io::Error` is opaque, so the error type is a type parameter `ε`.
-/

namespace Utility

namespace Measure

/-- Smoothing factor (`ALPHA` in src/measure.rs). -/
def ALPHA : ℚ := 1 / 2

/-- Minimum update rate for the moving average, 10 ms expressed in seconds
(`UPDATE_RATE` in src/measure.rs). -/
def UPDATE_RATE : ℚ := 1 / 100

/-- Modulus of `usize` on the 64-bit targets the crate is built for. -/
def USIZE_MOD : ℕ := 2 ^ 64

/-- Unchecked `usize` subtraction `a - b` as compiled in release mode: the
result wraps modulo `2 ^ 64` when `b > a` (a debug build panics there instead). -/
def usizeSub (a b : ℕ) : ℕ := (((a : ℤ) - (b : ℤ)) % (USIZE_MOD : ℤ)).toNat

/-- Outcome of an `f64` computation: a finite value (idealized as an exact
rational) or one of the non-finite IEEE-754 outcomes. -/
inductive F64 where
  | finite (q : ℚ)
  | inf
  | negInf
  | nan
deriving DecidableEq

/-- `f64` division of two finite operands: division by zero yields the IEEE-754
non-finite results; otherwise the exact quotient. -/
def fdiv (x y : ℚ) : F64 :=
  if y = 0 then
    if 0 < x then F64.inf else if x < 0 then F64.negInf else F64.nan
  else F64.finite (x / y)

/-- `Duration::try_from_secs_f64`: succeeds exactly on finite, non-negative
values that fit a `Duration` (whose seconds field is a `u64`); the resulting
duration is reported in seconds. -/
def tryFromSecsF64 : F64 → Option ℚ
  | F64.finite q => if 0 ≤ q ∧ q < (2 : ℚ) ^ 64 then some q else none
  | F64.inf => none
  | F64.negInf => none
  | F64.nan => none

/-- State of a `MeasuringReader` (src/measure.rs). The wrapped reader `inner`
is abstracted away; `bufTime`/`bufRead` are the fields of the inner `Buffer`. -/
structure MeasuringReader where
  size_hint : Option ℕ
  total : ℕ
  avg : ℚ
  bufTime : ℚ
  bufRead : ℕ
deriving DecidableEq

/-- `MeasuringReader::new`, parameterized by the construction time. -/
def MeasuringReader.new (now : ℚ) : MeasuringReader :=
  { size_hint := none, total := 0, avg := 0, bufTime := now, bufRead := 0 }

/-- `MeasuringReader::with_size_hint`, parameterized by the construction time. -/
def MeasuringReader.with_size_hint (now : ℚ) (n : ℕ) : MeasuringReader :=
  { size_hint := some n, total := 0, avg := 0, bufTime := now, bufRead := 0 }

/-- `MeasuringReader::time_remaining`: absent when no size hint was set or when
`Duration::try_from_secs_f64` rejects the computed value. The subtraction
`size_hint - self.total` is the unchecked `usize` subtraction of the source. -/
def MeasuringReader.time_remaining (s : MeasuringReader) : Option ℚ :=
  match s.size_hint with
  | none => none
  | some size_hint => tryFromSecsF64 (fdiv ((usizeSub size_hint s.total : ℕ) : ℚ) s.avg)

/-- `MeasuringReader::percentage`: `total / size_hint * 100` when the hint is
set, absent otherwise. (In `ℚ` the division by a zero hint yields `0`; the
`f64` of the source yields NaN there — both differ from `100`.) -/
def MeasuringReader.percentage (s : MeasuringReader) : Option ℚ :=
  match s.size_hint with
  | none => none
  | some size_hint => some ((s.total : ℚ) / (size_hint : ℚ) * 100)

/-- `<MeasuringReader as Read>::read` as a pure step: `now` is the current
time and `innerResult` the wrapped reader's result. On error the `?` operator
returns before any statistics are touched; on success the bytes are added to
the window, the average is folded in once the window spans at least
`UPDATE_RATE`, and `total` is bumped. -/
def MeasuringReader.read {ε : Type} (s : MeasuringReader) (now : ℚ)
    (innerResult : Except ε ℕ) : Except ε ℕ × MeasuringReader :=
  match innerResult with
  | Except.error e => (Except.error e, s)
  | Except.ok k =>
    let elapsed := now - s.bufTime
    let bufRead := s.bufRead + k
    if UPDATE_RATE ≤ elapsed then
      let speed := (bufRead : ℚ) / elapsed
      (Except.ok k,
        { s with avg := ALPHA * speed + (1 - ALPHA) * s.avg,
                 bufTime := now, bufRead := 0, total := s.total + k })
    else
      (Except.ok k, { s with bufRead := bufRead, total := s.total + k })

/-- Fold a sequence of `read` calls, each given as (time of the call, result of
the wrapped reader), threading the state. -/
def MeasuringReader.runReads {ε : Type} (s : MeasuringReader)
    (steps : List (ℚ × Except ε ℕ)) : MeasuringReader :=
  steps.foldl (fun st p => (st.read p.1 p.2).2) s

end Measure

namespace Tracing

/-- Severity levels of the `tracing` crate. -/
inductive Level where
  | trace
  | debug
  | info
  | warn
  | error
deriving DecidableEq

/-- Numeric severity: ERROR is the most severe. An event passes a level filter
for minimum level `m` exactly when its severity is at least `m`'s. -/
def Level.sev : Level → ℕ
  | Level.trace => 0
  | Level.debug => 1
  | Level.info => 2
  | Level.warn => 3
  | Level.error => 4

/-- `TracingBuilder` (src/tracing.rs). `PathBuf` is modelled as a string; the
`tracy` cargo feature is taken as compiled in, so `with_tracy` exists. -/
structure TracingBuilder where
  log_to_stdout : Bool
  log_to_tracy : Bool
  log_to_file : Option String
  log_level : Option Level
deriving DecidableEq

/-- `TracingBuilder::empty`: no logging enabled. -/
def TracingBuilder.empty : TracingBuilder :=
  { log_to_stdout := false, log_to_tracy := false, log_to_file := none, log_level := none }

/-- `TracingBuilder::with_stdout`. -/
def TracingBuilder.with_stdout (b : TracingBuilder) : TracingBuilder :=
  { b with log_to_stdout := true }

/-- `TracingBuilder::with_tracy` (present when the `tracy` feature is on). -/
def TracingBuilder.with_tracy (b : TracingBuilder) : TracingBuilder :=
  { b with log_to_tracy := true }

/-- `TracingBuilder::with_file`. -/
def TracingBuilder.with_file (b : TracingBuilder) (path : String) : TracingBuilder :=
  { b with log_to_file := some path }

/-- `TracingBuilder::with_level`. -/
def TracingBuilder.with_level (b : TracingBuilder) (level : Level) : TracingBuilder :=
  { b with log_level := some level }

/-- The three event sinks. -/
inductive Sink where
  | stdout
  | tracy
  | file
deriving DecidableEq

/-- One layer of the composed subscriber: a sink layer or the level filter. -/
inductive Layer where
  | sink (s : Sink)
  | levelFilter (min : Level)
deriving DecidableEq

/-- The composed subscriber, as its stack of layers, bottom first. -/
structure Subscriber where
  layers : List Layer
deriving DecidableEq

/-- `tracing_subscriber::registry()`: the empty layer stack. -/
def registry : Subscriber := { layers := [] }

/-- `SubscriberExt::with`: push a layer on top of the stack. The source passes
`Option` layers, whose `Layer` instance makes a `none` a no-op. -/
def Subscriber.withLayer (s : Subscriber) : Option Layer → Subscriber
  | none => s
  | some l => { layers := s.layers ++ [l] }

/-- Dispatch an event of severity `ev` through a layer stack given outermost
first: a level filter that rejects the event stops dispatch to every layer
beneath it; sink layers observe the event. Returns the sinks that observe
the event, bottom-most first. -/
def dispatch : List Layer → Level → List Sink
  | [], _ => []
  | Layer.levelFilter m :: rest, ev => if ev.sev < m.sev then [] else dispatch rest ev
  | Layer.sink s :: rest, ev => dispatch rest ev ++ [s]

/-- The sinks that observe an event of severity `ev` under subscriber `sub`:
layers are consulted outermost (last-pushed) first. -/
def Subscriber.observes (sub : Subscriber) (ev : Level) : List Sink :=
  dispatch sub.layers.reverse ev

/-- The two `expect`-aborts inside `TracingBuilder::init`. -/
inductive InitError where
  | fileCreateFailed
  | subscriberAlreadySet
deriving DecidableEq

/-- Result of a successful `init`: the installed subscriber, whether the panic
hook was replaced (exactly when the file sink is enabled), and the
`TracingDefer`'s `is_tracy_enabled` flag. -/
structure InitOk where
  subscriber : Subscriber
  hookInstalled : Bool
  deferTracy : Bool
deriving DecidableEq

/-- The subscriber built by `TracingBuilder::init` (src/tracing.rs lines
78-124): layers are pushed in the order stdout, tracy, file, then the level
filter for `log_level` defaulted to INFO. -/
def buildSubscriber (cfg : TracingBuilder) : Subscriber :=
  let stdout_layer := if cfg.log_to_stdout then some (Layer.sink Sink.stdout) else none
  let file_layer := cfg.log_to_file.map fun _ => Layer.sink Sink.file
  let tracy_layer := if cfg.log_to_tracy then some (Layer.sink Sink.tracy) else none
  let min_level := cfg.log_level.getD Level.info
  ((((registry.withLayer stdout_layer).withLayer tracy_layer).withLayer
      file_layer).withLayer (some (Layer.levelFilter min_level)))

/-- `TracingBuilder::init` as a transition on the process-wide "global
subscriber installed" flag of `tracing::subscriber::set_global_default`.
`fileCreateOk` says whether `File::create` would succeed; each `expect` of the
source is an `InitError` (an unrecoverable abort). On success the new value of
the installed flag is returned alongside the `InitOk`. -/
def TracingBuilder.init (cfg : TracingBuilder) (fileCreateOk : Bool)
    (installed : Bool) : Except InitError (InitOk × Bool) :=
  if cfg.log_to_file.isSome && !fileCreateOk then Except.error InitError.fileCreateFailed
  else if installed then Except.error InitError.subscriberAlreadySet
  else
    Except.ok
      ({ subscriber := buildSubscriber cfg,
         hookInstalled := cfg.log_to_file.isSome,
         deferTracy := cfg.log_to_tracy }, true)

/-- Observable actions of the panic hook installed by `init`; `writeAll` and
`flush` record the attempt, and `abortExpect` is the `expect`-abort taken when
such an attempt fails. -/
inductive HookAction where
  | tryLock
  | captureBacktrace (forced : Bool)
  | writeAll (msg : String)
  | flush
  | callOldHook
  | abortExpect (msg : String)
deriving DecidableEq

/-- The panic hook installed by `init` when the file sink is enabled
(src/tracing.rs lines 92-102), as the sequence of actions it performs.
`lockAcquired` is the outcome of `try_lock` on the shared writer; `writeOk`
and `flushOk` are the outcomes of `write_all` and `flush`, each of which is
followed by an `expect` that aborts on failure before anything further runs
(in particular before `old_hook`); `info` and `backtrace` are the rendered
panic info and the forcibly captured backtrace. -/
def panicHookRun (lockAcquired writeOk flushOk : Bool) (info backtrace : String) :
    List HookAction :=
  HookAction.tryLock ::
    (if lockAcquired then
      HookAction.captureBacktrace true ::
      HookAction.writeAll (info ++ "\n\n" ++ "Stack backtrace:\n" ++ backtrace) ::
      (if writeOk then
        HookAction.flush ::
          (if flushOk then [HookAction.callOldHook]
           else [HookAction.abortExpect "failed to flush buffer"])
       else [HookAction.abortExpect "failed to write backtrace"])
     else [HookAction.callOldHook])

end Tracing

end Utility

namespace Utility.Measure

/-- Unfolding of `read` on a successful inner read once the window spans at
least `UPDATE_RATE`: the average is folded in and the window is reset. -/
theorem read_ok_long {ε : Type} (s : MeasuringReader) (now : ℚ) (k : ℕ)
    (h : UPDATE_RATE ≤ now - s.bufTime) :
    s.read now (Except.ok k : Except ε ℕ) =
      (Except.ok k,
        { s with avg := ALPHA * (((s.bufRead + k : ℕ) : ℚ) / (now - s.bufTime)) + (1 - ALPHA) * s.avg,
                 bufTime := now, bufRead := 0, total := s.total + k }) := by
  simp [MeasuringReader.read, h]

/-- Unfolding of `read` on a successful inner read while the window is still
shorter than `UPDATE_RATE`: only the window byte count and `total` change. -/
theorem read_ok_short {ε : Type} (s : MeasuringReader) (now : ℚ) (k : ℕ)
    (h : now - s.bufTime < UPDATE_RATE) :
    s.read now (Except.ok k : Except ε ℕ) =
      (Except.ok k, { s with bufRead := s.bufRead + k, total := s.total + k }) := by
  simp [MeasuringReader.read, not_le.2 h]

/-- On an inner error, `read` changes nothing and forwards the error. -/
theorem read_error_frame {ε : Type} (s : MeasuringReader) (now : ℚ) (e : ε) :
    s.read now (Except.error e) = (Except.error e, s) := rfl

/-- A successful `read` of `k` bytes adds exactly `k` to `total`. -/
theorem read_ok_total {ε : Type} (s : MeasuringReader) (now : ℚ) (k : ℕ) :
    (s.read now (Except.ok k : Except ε ℕ)).2.total = s.total + k := by
  simp only [MeasuringReader.read]
  split <;> rfl

/-- `read` never changes `size_hint`. -/
theorem read_size_hint {ε : Type} (s : MeasuringReader) (now : ℚ) (res : Except ε ℕ) :
    (s.read now res).2.size_hint = s.size_hint := by
  cases res with
  | error e => rfl
  | ok k =>
    simp only [MeasuringReader.read]
    split <;> rfl

theorem runReads_cons {ε : Type} (s : MeasuringReader) (p : ℚ × Except ε ℕ)
    (steps : List (ℚ × Except ε ℕ)) :
    s.runReads (p :: steps) = ((s.read p.1 p.2).2).runReads steps := rfl

/-- `runReads` never changes `size_hint`. -/
theorem runReads_size_hint {ε : Type} :
    ∀ (steps : List (ℚ × Except ε ℕ)) (s : MeasuringReader),
      (s.runReads steps).size_hint = s.size_hint := by
  intro steps
  induction steps with
  | nil => intro s; rfl
  | cons p rest ih =>
    intro s
    rw [runReads_cons, ih, read_size_hint]

/-- Summing up successful reads: `runReads` adds the returned byte counts. -/
theorem runReads_total_sum {ε : Type} :
    ∀ (steps : List (ℚ × Except ε ℕ)) (s : MeasuringReader) (ks : List ℕ),
      steps.map Prod.snd = ks.map Except.ok →
      (s.runReads steps).total = s.total + ks.sum := by
  intro steps
  induction steps with
  | nil =>
    intro s ks h
    cases ks with
    | nil => simp [MeasuringReader.runReads]
    | cons k ks => simp at h
  | cons p rest ih =>
    intro s ks h
    cases ks with
    | nil => simp at h
    | cons k ks =>
      simp only [List.map_cons, List.cons.injEq] at h
      obtain ⟨h1, h2⟩ := h
      rw [runReads_cons, ih ((s.read p.1 p.2).2) ks h2, h1, read_ok_total]
      simp [Nat.add_assoc]

/-- As long as every read in a run happens while the window is shorter than
`UPDATE_RATE`, neither the average nor the window start changes. -/
theorem runReads_short_frame {ε : Type} :
    ∀ (steps : List (ℚ × Except ε ℕ)) (s : MeasuringReader),
      (∀ p ∈ steps, p.1 - s.bufTime < UPDATE_RATE) →
      (s.runReads steps).avg = s.avg ∧ (s.runReads steps).bufTime = s.bufTime := by
  intro steps
  induction steps with
  | nil => intro s _; exact ⟨rfl, rfl⟩
  | cons p rest ih =>
    intro s h
    have hp : p.1 - s.bufTime < UPDATE_RATE := h p (List.mem_cons_self p rest)
    have hstep : (s.read p.1 p.2).2.avg = s.avg ∧ (s.read p.1 p.2).2.bufTime = s.bufTime := by
      cases hres : p.2 with
      | error e => rw [read_error_frame]; exact ⟨rfl, rfl⟩
      | ok k => rw [read_ok_short s p.1 k hp]; exact ⟨rfl, rfl⟩
    have hrest := ih ((s.read p.1 p.2).2) (by
      intro q hq
      rw [hstep.2]
      exact h q (List.mem_cons_of_mem p hq))
    rw [runReads_cons]
    exact ⟨hrest.1.trans hstep.1, hrest.2.trans hstep.2⟩

/-- C1 (code bug): the claim mandates the absent variant whenever
`total > size_hint`, but the source computes `size_hint - self.total` as an
unchecked `usize` subtraction. At the concrete failing input — a reader with
size hint 1 that saw one successful 2-byte read over a 1-second window, so
`total = 2`, `avg = 1` byte/s — a release build wraps the subtraction modulo
`2 ^ 64` and `time_remaining` returns a duration of `2 ^ 64 - 1` seconds
rather than the absent variant (a debug build panics at the subtraction). -/
theorem time_remaining_underflow_wraps :
    ((MeasuringReader.with_size_hint 0 1).read 1 (Except.ok 2 : Except ℕ ℕ)).2.total = 2
  ∧ ((MeasuringReader.with_size_hint 0 1).read 1 (Except.ok 2 : Except ℕ ℕ)).2.avg = 1
  ∧ ((MeasuringReader.with_size_hint 0 1).read 1 (Except.ok 2 : Except ℕ ℕ)).2.time_remaining
      = some ((2 : ℚ) ^ 64 - 1)
  ∧ ((MeasuringReader.with_size_hint 0 1).read 1 (Except.ok 2 : Except ℕ ℕ)).2.time_remaining
      ≠ none := by
  have h : ((MeasuringReader.with_size_hint 0 1).read 1 (Except.ok 2 : Except ℕ ℕ)).2
      = { size_hint := some 1, total := 2, avg := 1, bufTime := 1, bufRead := 0 } := by
    simp [MeasuringReader.with_size_hint, MeasuringReader.read, UPDATE_RATE, ALPHA]
    norm_num
  have htr : ((MeasuringReader.with_size_hint 0 1).read 1 (Except.ok 2 : Except ℕ ℕ)).2.time_remaining
      = some ((2 : ℚ) ^ 64 - 1) := by
    rw [h]
    simp [MeasuringReader.time_remaining, usizeSub, USIZE_MOD, fdiv, tryFromSecsF64]
    norm_num
  refine ⟨by rw [h], by rw [h], htr, by rw [htr]; exact Option.some_ne_none _⟩

/-- C3 counterexample: construct with a size hint of 0 and perform no reads, so
that `total = size_hint = 0`. The claim demands `percentage() = 100`, but the
computed value is `total / size_hint * 100` with a zero divisor — `some 0` in
this rational model, NaN in the source's `f64` — and in either case not 100. -/
theorem percentage_zero_hint_not_100 :
    (MeasuringReader.with_size_hint 0 0).total = 0
  ∧ (MeasuringReader.with_size_hint 0 0).percentage = some 0
  ∧ (MeasuringReader.with_size_hint 0 0).percentage ≠ some 100 := by
  refine ⟨rfl, ?_, ?_⟩
  · simp [MeasuringReader.with_size_hint, MeasuringReader.percentage]
  · simp [MeasuringReader.with_size_hint, MeasuringReader.percentage]

/-- C3 (amended to a nonzero size hint): for every reader constructed with
`with_size_hint(_, n)` and any sequence of reads, `percentage()` is
`total / size_hint * 100` with no clamping; when `n > 0` and the reads reach
`total = n` it equals 100; and without a size hint it is absent. -/
theorem percentage_formula (t : ℚ) (n : ℕ) (steps : List (ℚ × Except ℕ ℕ))
    (hn : 0 < n) :
    ((MeasuringReader.with_size_hint t n).runReads steps).percentage
      = some ((((MeasuringReader.with_size_hint t n).runReads steps).total : ℚ) / (n : ℚ) * 100)
  ∧ (((MeasuringReader.with_size_hint t n).runReads steps).total = n →
      ((MeasuringReader.with_size_hint t n).runReads steps).percentage = some 100)
  ∧ ((MeasuringReader.new t).runReads steps).percentage = none := by
  have hs : ((MeasuringReader.with_size_hint t n).runReads steps).size_hint = some n :=
    runReads_size_hint steps (MeasuringReader.with_size_hint t n)
  have hfor : ((MeasuringReader.with_size_hint t n).runReads steps).percentage
      = some ((((MeasuringReader.with_size_hint t n).runReads steps).total : ℚ) / (n : ℚ) * 100) := by
    simp [MeasuringReader.percentage, hs]
  refine ⟨hfor, ?_, ?_⟩
  · intro htot
    rw [hfor, htot]
    have hne : ((n : ℚ)) ≠ 0 := Nat.cast_ne_zero.2 hn.ne'
    rw [div_self hne, one_mul]
  · have hs0 : ((MeasuringReader.new t).runReads steps).size_hint = none :=
      runReads_size_hint steps (MeasuringReader.new t)
    simp [MeasuringReader.percentage, hs0]

/-- Witness for the amended C3 at size hint 1 and a single 1-byte read:
the reads reach the hint and the percentage is exactly 100. -/
theorem percentage_formula_witness :
    ((MeasuringReader.with_size_hint 0 1).runReads [(0, (Except.ok 1 : Except ℕ ℕ))]).percentage
      = some 100 := by
  have happ := percentage_formula 0 1 [(0, (Except.ok 1 : Except ℕ ℕ))] (by norm_num)
  refine happ.2.1 ?_
  rw [runReads_cons, read_ok_short _ _ _ (by norm_num [MeasuringReader.with_size_hint, UPDATE_RATE])]
  rfl

/-- C4: over a sequence of successful reads returning k₁, k₂, …, a freshly
constructed reader ends with `total = Σ kᵢ` (and in general `runReads` adds
`Σ kᵢ` to the starting total); a single read never decreases `total`; and a
successful zero-byte read leaves `total` unchanged. -/
theorem total_accumulates {ε : Type} (t : ℚ) (s : MeasuringReader)
    (steps : List (ℚ × Except ε ℕ)) (ks : List ℕ) (now : ℚ) (res : Except ε ℕ)
    (h : steps.map Prod.snd = ks.map Except.ok) :
    ((MeasuringReader.new t).runReads steps).total = ks.sum
  ∧ (s.runReads steps).total = s.total + ks.sum
  ∧ s.total ≤ (s.read now res).2.total
  ∧ (s.read now (Except.ok 0 : Except ε ℕ)).2.total = s.total := by
  refine ⟨?_, runReads_total_sum steps s ks h, ?_, ?_⟩
  · simpa [MeasuringReader.new] using runReads_total_sum steps (MeasuringReader.new t) ks h
  · cases res with
    | error e => rw [read_error_frame]
    | ok k => rw [read_ok_total]; exact Nat.le_add_right s.total k
  · rw [read_ok_total]
    exact Nat.add_zero s.total

/-- Witness for C4: two successful reads of 2 then 3 bytes starting from a
fresh reader end with `total = 5`. -/
theorem total_accumulates_witness :
    ((MeasuringReader.new 0).runReads
        [(0, (Except.ok 2 : Except ℕ ℕ)), (1, (Except.ok 3 : Except ℕ ℕ))]).total = 5 :=
  (total_accumulates 0 (MeasuringReader.new 0)
      [(0, (Except.ok 2 : Except ℕ ℕ)), (1, (Except.ok 3 : Except ℕ ℕ))] [2, 3] 0
      (Except.ok 2) rfl).1

/-- C5: a successful read adds its bytes to the window; when the window spans
at least `UPDATE_RATE` (10 ms), the average becomes
`ALPHA * window_bytes / elapsed + (1 - ALPHA) * avg` and the window is reset
to (now, 0); when it is shorter, the average is untouched — and hence a whole
run of reads each observed under 10 ms leaves the average unchanged. -/
theorem avg_update (s : MeasuringReader) (now : ℚ) (k : ℕ)
    (steps : List (ℚ × Except ℕ ℕ))
    (hshort : ∀ p ∈ steps, p.1 - s.bufTime < UPDATE_RATE) :
    (UPDATE_RATE ≤ now - s.bufTime →
      s.read now (Except.ok k : Except ℕ ℕ) =
        (Except.ok k,
          { s with
              avg := ALPHA * (((s.bufRead + k : ℕ) : ℚ) / (now - s.bufTime)) + (1 - ALPHA) * s.avg,
              bufTime := now, bufRead := 0, total := s.total + k }))
  ∧ (now - s.bufTime < UPDATE_RATE →
      s.read now (Except.ok k : Except ℕ ℕ) =
        (Except.ok k, { s with bufRead := s.bufRead + k, total := s.total + k }))
  ∧ (s.runReads steps).avg = s.avg :=
  ⟨read_ok_long s now k, read_ok_short s now k, (runReads_short_frame steps s hshort).1⟩

/-- Witness for C5: a fresh reader doing one read 5 ms after construction
(under the 10 ms window) keeps its average at 0. -/
theorem avg_update_witness :
    ((MeasuringReader.new 0).runReads [(1 / 200, (Except.ok 1 : Except ℕ ℕ))]).avg = 0 :=
  (avg_update (MeasuringReader.new 0) 1 5 [(1 / 200, (Except.ok 1 : Except ℕ ℕ))]
    (by
      intro p hp
      simp only [List.mem_singleton] at hp
      subst hp
      norm_num [MeasuringReader.new, UPDATE_RATE])).2.2

/-- C6: when the wrapped source returns an error, `read` forwards exactly that
error and the whole reader state — total, average and window — is unchanged. -/
theorem read_error_passthrough {ε : Type} (s : MeasuringReader) (now : ℚ) (e : ε) :
    s.read now (Except.error e) = (Except.error e, s) := rfl

end Utility.Measure

namespace Utility.Tracing

/-- C2 counterexample: the claim says the hook invokes the previously
installed panic hook in every case, but when the lock is acquired and
`write_all` fails, the `expect` on it (src/tracing.rs line 98) aborts the
process before `old_hook(info)` ever runs: at the concrete input (lock
acquired, failing write) the hook's action sequence ends in the
`expect`-abort and never contains the call of the old hook. -/
theorem panic_hook_write_failure_skips_old_hook :
    panicHookRun true false true "p0" "b0" =
      [HookAction.tryLock, HookAction.captureBacktrace true,
       HookAction.writeAll ("p0" ++ "\n\n" ++ "Stack backtrace:\n" ++ "b0"),
       HookAction.abortExpect "failed to write backtrace"]
  ∧ HookAction.callOldHook ∉ panicHookRun true false true "p0" "b0" := by
  constructor
  · rfl
  · simp [panicHookRun]

/-- C2 (amended: the previous hook runs only if no write step aborts): once
`init` has run with the file sink enabled it has installed the panic hook
(the `hookInstalled` flag of a successful `init`), and on every panic that
hook first attempts a non-blocking acquisition of the shared writer's lock;
when acquired it forcibly captures a backtrace, performs a single write of
the panic information, two newlines, the literal line containing Stack
backtrace, and the backtrace, then flushes; when not acquired it writes
nothing; the previously installed hook is called last exactly when the lock
was not acquired or both the write and the flush succeeded, while a failed
write or flush `expect`-aborts at that point without reaching the old hook. -/
theorem panic_hook_behavior (acquired writeOk flushOk : Bool) (info bt : String)
    (cfg : TracingBuilder) (p : String) (r : InitOk × Bool)
    (hf : cfg.log_to_file = some p) (hr : cfg.init true false = Except.ok r) :
    r.1.hookInstalled = true
  ∧ (acquired = true → writeOk = true → flushOk = true →
      panicHookRun acquired writeOk flushOk info bt =
        [HookAction.tryLock, HookAction.captureBacktrace true,
         HookAction.writeAll (info ++ "\n\n" ++ "Stack backtrace:\n" ++ bt),
         HookAction.flush, HookAction.callOldHook])
  ∧ (acquired = false →
      panicHookRun acquired writeOk flushOk info bt =
        [HookAction.tryLock, HookAction.callOldHook])
  ∧ (acquired = false ∨ (writeOk = true ∧ flushOk = true) →
      (panicHookRun acquired writeOk flushOk info bt).getLast?
        = some HookAction.callOldHook)
  ∧ (acquired = true → writeOk = false →
      panicHookRun acquired writeOk flushOk info bt =
        [HookAction.tryLock, HookAction.captureBacktrace true,
         HookAction.writeAll (info ++ "\n\n" ++ "Stack backtrace:\n" ++ bt),
         HookAction.abortExpect "failed to write backtrace"])
  ∧ (acquired = true → writeOk = true → flushOk = false →
      panicHookRun acquired writeOk flushOk info bt =
        [HookAction.tryLock, HookAction.captureBacktrace true,
         HookAction.writeAll (info ++ "\n\n" ++ "Stack backtrace:\n" ++ bt),
         HookAction.flush, HookAction.abortExpect "failed to flush buffer"]) := by
  refine ⟨?_, ?_, ?_, ?_, ?_, ?_⟩
  · simp [TracingBuilder.init, hf] at hr
    rw [← hr]
  · intro h1 h2 h3
    subst h1; subst h2; subst h3
    rfl
  · intro h1
    subst h1
    rfl
  · rintro (h1 | ⟨h2, h3⟩)
    · subst h1
      rfl
    · subst h2; subst h3
      cases acquired <;> rfl
  · intro h1 h2
    subst h1; subst h2
    rfl
  · intro h1 h2 h3
    subst h1; subst h2; subst h3
    rfl

/-- Witness for the amended C2 at a concrete configuration (file sink to path
l, lock acquired, write and flush succeeding, panic message p0, backtrace
b0). -/
theorem panic_hook_behavior_witness :
    panicHookRun true true true "p0" "b0" =
      [HookAction.tryLock, HookAction.captureBacktrace true,
       HookAction.writeAll ("p0" ++ "\n\n" ++ "Stack backtrace:\n" ++ "b0"),
       HookAction.flush, HookAction.callOldHook] :=
  (panic_hook_behavior true true true "p0" "b0" (TracingBuilder.empty.with_file "l")
    "l" ({ subscriber := buildSubscriber (TracingBuilder.empty.with_file "l"),
           hookInstalled := true, deferTracy := false }, true) rfl rfl).2.1 rfl rfl rfl

/-- C7: `init` installs the global subscriber at most once per process — a
successful `init` leaves the installed flag set, and with the flag set every
further `init` call fails with one of the unrecoverable initialization
errors, whatever its configuration. -/
theorem init_at_most_once (cfg cfg' : TracingBuilder) (fk fk' : Bool)
    (r : InitOk × Bool) (h : cfg.init fk false = Except.ok r) :
    r.2 = true ∧ ∃ e, cfg'.init fk' true = Except.error e := by
  constructor
  · unfold TracingBuilder.init at h
    split at h
    · simp at h
    · simp at h
      rw [← h]
  · by_cases hc : (cfg'.log_to_file.isSome && !fk') = true
    · exact ⟨InitError.fileCreateFailed, by simp [TracingBuilder.init, hc]⟩
    · exact ⟨InitError.subscriberAlreadySet, by simp [TracingBuilder.init, hc]⟩

/-- Witness for C7: a first stdout-only `init` succeeds and flips the
installed flag; a second identical call fails. -/
theorem init_at_most_once_witness :
    (({ subscriber := buildSubscriber TracingBuilder.empty.with_stdout,
        hookInstalled := false, deferTracy := false }, true) : InitOk × Bool).2 = true
  ∧ ∃ e, TracingBuilder.empty.with_stdout.init true true = Except.error e :=
  init_at_most_once TracingBuilder.empty.with_stdout TracingBuilder.empty.with_stdout
    true true
    ({ subscriber := buildSubscriber TracingBuilder.empty.with_stdout,
       hookInstalled := false, deferTracy := false }, true) rfl

/-- C8: the subscriber built by `init` stacks the enabled layers bottom-to-top
in the order stdout, tracy, file, level filter (with the filter for
`log_level` defaulted to INFO outermost); consequently an event whose
severity is strictly below the minimum level is observed by no sink. -/
theorem layer_order_and_filtering (cfg : TracingBuilder) (ev : Level)
    (hlt : ev.sev < (cfg.log_level.getD Level.info).sev) :
    (buildSubscriber cfg).layers =
      (if cfg.log_to_stdout then [Layer.sink Sink.stdout] else []) ++
      (if cfg.log_to_tracy then [Layer.sink Sink.tracy] else []) ++
      (cfg.log_to_file.map fun _ => Layer.sink Sink.file).toList ++
      [Layer.levelFilter (cfg.log_level.getD Level.info)]
  ∧ (buildSubscriber cfg).observes ev = [] := by
  have hl : (buildSubscriber cfg).layers =
      (if cfg.log_to_stdout then [Layer.sink Sink.stdout] else []) ++
      (if cfg.log_to_tracy then [Layer.sink Sink.tracy] else []) ++
      (cfg.log_to_file.map fun _ => Layer.sink Sink.file).toList ++
      [Layer.levelFilter (cfg.log_level.getD Level.info)] := by
    cases hs : cfg.log_to_stdout <;> cases ht : cfg.log_to_tracy <;>
      cases hf : cfg.log_to_file <;>
        simp [buildSubscriber, Subscriber.withLayer, registry, hs, ht, hf]
  refine ⟨hl, ?_⟩
  unfold Subscriber.observes
  rw [hl]
  simp only [List.reverse_append, List.reverse_cons, List.reverse_nil,
    List.nil_append, List.cons_append]
  simp [dispatch, hlt]

/-- Witness for C8: with no level configured, a DEBUG event (severity below
the INFO default) reaches no sink of the built subscriber. -/
theorem layer_order_and_filtering_witness :
    (buildSubscriber TracingBuilder.empty.with_stdout).observes Level.debug = [] :=
  (layer_order_and_filtering TracingBuilder.empty.with_stdout Level.debug (by decide)).2

/-- C9: the builder mutators commute pairwise (each one touches a distinct
field), so `empty().with_stdout().with_file(p)` and
`empty().with_file(p).with_stdout()` are the same configuration and build the
same subscriber. -/
theorem builder_order_independent (b : TracingBuilder) (p : String) (l : Level) :
    TracingBuilder.empty.with_stdout.with_file p
      = (TracingBuilder.empty.with_file p).with_stdout
  ∧ buildSubscriber (TracingBuilder.empty.with_stdout.with_file p)
      = buildSubscriber ((TracingBuilder.empty.with_file p).with_stdout)
  ∧ b.with_stdout.with_tracy = b.with_tracy.with_stdout
  ∧ b.with_stdout.with_file p = (b.with_file p).with_stdout
  ∧ b.with_stdout.with_level l = (b.with_level l).with_stdout
  ∧ b.with_tracy.with_file p = (b.with_file p).with_tracy
  ∧ b.with_tracy.with_level l = (b.with_level l).with_tracy
  ∧ (b.with_file p).with_level l = (b.with_level l).with_file p := by
  cases b
  exact ⟨rfl, rfl, rfl, rfl, rfl, rfl, rfl, rfl⟩

/-- C10: each builder mutator sets exactly one field and leaves the other
three unchanged, and a repeated `with_file` or `with_level` overwrites the
stored path or level (last write wins). -/
theorem builder_mutator_frame (b : TracingBuilder) (p q : String) (l m : Level) :
    (b.with_stdout.log_to_stdout = true
      ∧ b.with_stdout.log_to_tracy = b.log_to_tracy
      ∧ b.with_stdout.log_to_file = b.log_to_file
      ∧ b.with_stdout.log_level = b.log_level)
  ∧ (b.with_tracy.log_to_tracy = true
      ∧ b.with_tracy.log_to_stdout = b.log_to_stdout
      ∧ b.with_tracy.log_to_file = b.log_to_file
      ∧ b.with_tracy.log_level = b.log_level)
  ∧ ((b.with_file p).log_to_file = some p
      ∧ (b.with_file p).log_to_stdout = b.log_to_stdout
      ∧ (b.with_file p).log_to_tracy = b.log_to_tracy
      ∧ (b.with_file p).log_level = b.log_level)
  ∧ ((b.with_level l).log_level = some l
      ∧ (b.with_level l).log_to_stdout = b.log_to_stdout
      ∧ (b.with_level l).log_to_tracy = b.log_to_tracy
      ∧ (b.with_level l).log_to_file = b.log_to_file)
  ∧ (b.with_file p).with_file q = b.with_file q
  ∧ (b.with_level l).with_level m = b.with_level m := by
  cases b
  exact ⟨⟨rfl, rfl, rfl, rfl⟩, ⟨rfl, rfl, rfl, rfl⟩, ⟨rfl, rfl, rfl, rfl⟩,
    ⟨rfl, rfl, rfl, rfl⟩, rfl, rfl⟩

end Utility.Tracing
